import Mathlib

/-!
Shallow embedding of `_TrinoToGCSTrinoCursorAdapter` and
`TrinoToGCSOperator.field_to_bigquery` from
`providers/src/airflow/providers/google/cloud/transfers/trino_to_gcs.py`.

The adapter wraps an opaque raw Trino cursor.  We model the raw cursor's
observable behaviour inside the adapter state: `stream` is the list of rows
the raw cursor will still emit (its `fetchone` returns the head, or `None`
when exhausted), `descVal` is the column-descriptor sequence the raw cursor
reports once populated, `descReady` records whether at least one fetch
attempt has populated it, `rowcountRaw` is the raw cursor's `rowcount`
attribute and `arraysize` its preferred batch size.  The adapter's own
fields are `rows` (the row buffer, Python `self.rows`, whose entries may be
the end-of-stream marker `none`), `inited` (Python `self.initialized`) and
the ghost counter `fetchCount` counting calls to the raw cursor's
`fetchone`.
-/

namespace TrinoGcs

structure AdapterState (α β : Type) where
  stream : List α
  descVal : List β
  descReady : Bool
  rowcountRaw : Int
  arraysize : Nat
  rows : List (Option α)
  inited : Bool
  fetchCount : Nat
deriving DecidableEq, Repr

variable {α β γ : Type}

/-- The raw cursor's `fetchone`: head of the remaining stream, or the
end-of-stream marker `none`; any fetch attempt populates the description. -/
def rawFetchone (s : AdapterState α β) : Option α × AdapterState α β :=
  match s.stream with
  | [] => (none, { s with descReady := true, fetchCount := s.fetchCount + 1 })
  | r :: rest =>
      (some r, { s with stream := rest, descReady := true, fetchCount := s.fetchCount + 1 })

/-- The raw cursor's `description` attribute: populated only after at least
one fetch attempt. -/
def rawDescription (s : AdapterState α β) : Option (List β) :=
  if s.descReady then some s.descVal else none

/-- `peekone`: set `initialized`, fetch one element from the raw cursor and
insert it at the front of the row buffer, returning the element. -/
def peekone (s : AdapterState α β) : Option α × AdapterState α β :=
  let s0 := { s with inited := true }
  let p := rawFetchone s0
  (p.1, { p.2 with rows := p.1 :: p.2.rows })

/-- The `description` property: if not initialized, peek once first, then
return the raw cursor's description. -/
def description (s : AdapterState α β) : Option (List β) × AdapterState α β :=
  if s.inited then (rawDescription s, s)
  else
    let p := peekone s
    (rawDescription p.2, p.2)

/-- The `rowcount` property: pass-through to the raw cursor. -/
def rowcount (s : AdapterState α β) : Int := s.rowcountRaw

/-- What one raw `execute`/`executemany` call does, abstracted: it starts a
new result stream, a new (not yet populated) description, and returns some
value `ret` (`TrinoResult` in the source). -/
structure ExecEffect (α β γ : Type) where
  newStream : List α
  newDesc : List β
  ret : γ
deriving DecidableEq, Repr

/-- The raw cursor's `execute`: replace the result stream and description,
return the driver's return value. -/
def rawExecute (s : AdapterState α β) (e : ExecEffect α β γ) : γ × AdapterState α β :=
  (e.ret, { s with stream := e.newStream, descVal := e.newDesc, descReady := false })

/-- Adapter `execute`: reset `initialized`, clear the buffer, delegate. -/
def execute (s : AdapterState α β) (e : ExecEffect α β γ) : γ × AdapterState α β :=
  rawExecute { s with inited := false, rows := [] } e

/-- Adapter `executemany`: reset `initialized`, clear the buffer, delegate. -/
def executemany (s : AdapterState α β) (e : ExecEffect α β γ) : γ × AdapterState α β :=
  rawExecute { s with inited := false, rows := [] } e

/-- Adapter `fetchone`: pop the front of the buffer if nonempty, else fetch
from the raw cursor. -/
def fetchone (s : AdapterState α β) : Option α × AdapterState α β :=
  match s.rows with
  | e :: rest => (e, { s with rows := rest })
  | [] => rawFetchone s

/-- The loop body of `fetchmany`: call `fetchone` up to `n` times, stopping
(without appending) at the first `none`. -/
def fetchmanyAux : Nat → AdapterState α β → List α × AdapterState α β
  | 0, s => ([], s)
  | n + 1, s =>
      match fetchone s with
      | (none, s1) => ([], s1)
      | (some r, s1) =>
          let p := fetchmanyAux n s1
          (r :: p.1, p.2)

/-- Adapter `fetchmany`: when `size` is omitted (`none`) the raw cursor's
`arraysize` is used. -/
def fetchmany (s : AdapterState α β) (size : Option Nat) : List α × AdapterState α β :=
  fetchmanyAux (size.getD s.arraysize) s

/-- One step of the iteration protocol (`__next__`): `fetchone`; a `none`
result models the `StopIteration` signal. -/
def nextStep (s : AdapterState α β) : Option α × AdapterState α β :=
  fetchone s

/-- Driving the iterator up to `n` steps: repeatedly `__next__`, stopping at
`StopIteration` (the iterator is `self`, per `__iter__`). -/
def iterDrain : Nat → AdapterState α β → List α × AdapterState α β
  | 0, s => ([], s)
  | n + 1, s =>
      match nextStep s with
      | (none, s1) => ([], s1)
      | (some r, s1) =>
          let p := iterDrain n s1
          (r :: p.1, p.2)

/-- A fresh adapter as built by `query`: raw cursor just executed, empty
buffer, not initialized. -/
def initAdapter (stream : List α) (desc : List β) (rc : Int) (asize : Nat) :
    AdapterState α β :=
  { stream := stream, descVal := desc, descReady := false, rowcountRaw := rc,
    arraysize := asize, rows := [], inited := false, fetchCount := 0 }

/-- The rows the adapter will still deliver: buffered non-marker entries, in
buffer order, followed by the raw cursor's remaining stream. -/
def logical (s : AdapterState α β) : List α :=
  s.rows.filterMap id ++ s.stream

/-- Number of undelivered rows. -/
def remaining (s : AdapterState α β) : Nat :=
  (logical s).length

/-- Buffer shapes arising in normal use: either every buffered entry is a
real row, or the buffer is a single end-of-stream marker and the raw cursor
is exhausted. -/
def BufOk (s : AdapterState α β) : Prop :=
  (∀ x ∈ s.rows, x ≠ none) ∨ (s.rows = [none] ∧ s.stream = [])

/-- The static Trino → BigQuery type mapping table (`type_map`). -/
def type_map : List (String × String) :=
  [("BOOLEAN", "BOOL"),
   ("TINYINT", "INT64"),
   ("SMALLINT", "INT64"),
   ("INTEGER", "INT64"),
   ("BIGINT", "INT64"),
   ("REAL", "FLOAT64"),
   ("DOUBLE", "FLOAT64"),
   ("DECIMAL", "NUMERIC"),
   ("VARCHAR", "STRING"),
   ("CHAR", "STRING"),
   ("VARBINARY", "BYTES"),
   ("JSON", "STRING"),
   ("DATE", "DATE"),
   ("TIME", "TIME"),
   ("TIME WITH TIME ZONE", "STRING"),
   ("TIMESTAMP", "TIMESTAMP"),
   ("TIMESTAMP WITH TIME ZONE", "STRING"),
   ("IPADDRESS", "STRING"),
   ("UUID", "STRING")]

/-- Python `str.upper()` on the ASCII type codes: uppercase each character. -/
def pyUpper (s : String) : String :=
  String.mk (s.data.map Char.toUpper)

/-- Python `str.partition("(")` first component: the characters before the
first `(` (the whole string when there is none). -/
def beforeParen (s : String) : String :=
  String.mk (s.data.takeWhile (fun c => c ≠ '('))

/-- `field_to_bigquery`: a field is a pair (name, engine type code); the
type code is uppercased, truncated at the first parenthesis, looked up in
`type_map` with default `"STRING"`; the name passes through. -/
def field_to_bigquery (field : String × String) : String × String :=
  let clear1 := pyUpper field.2
  let clear2 := beforeParen clear1
  (field.1, (type_map.lookup clear2).getD "STRING")

/-! ## General lemmas about the adapter state machine -/

theorem fetchone_cons (s : AdapterState α β) (e : Option α) (rest : List (Option α))
    (h : s.rows = e :: rest) : fetchone s = (e, { s with rows := rest }) := by
  simp [fetchone, h]

theorem fetchone_nil (s : AdapterState α β) (h : s.rows = []) :
    fetchone s = rawFetchone s := by
  simp [fetchone, h]

theorem rawFetchone_rows (s : AdapterState α β) : (rawFetchone s).2.rows = s.rows := by
  cases hs : s.stream <;> simp [rawFetchone, hs]

/-- Draining by repeated `fetchone` returns a prefix of the logical row
sequence, as long as the buffer holds no end-of-stream marker. -/
theorem fetchmanyAux_eq_take :
    ∀ (n : Nat) (s : AdapterState α β), (∀ x ∈ s.rows, x ≠ none) →
      (fetchmanyAux n s).1 = (logical s).take n := by
  intro n
  induction n with
  | zero => intro s _; simp [fetchmanyAux]
  | succ n ih =>
      intro s h
      cases hr : s.rows with
      | cons e rest =>
          cases e with
          | none => exact absurd rfl (h none (hr ▸ List.mem_cons_self _ _))
          | some r =>
              have h2 : ∀ x ∈ ({ s with rows := rest } : AdapterState α β).rows, x ≠ none :=
                fun x hx => h x (hr ▸ List.mem_cons_of_mem _ hx)
              have ih2 := ih { s with rows := rest } h2
              simp [fetchmanyAux, fetchone_cons s _ _ hr, ih2, logical, hr]
      | nil =>
          cases hs : s.stream with
          | nil =>
              simp [fetchmanyAux, fetchone_nil s hr, rawFetchone, hs, logical, hr]
          | cons r rest =>
              have h2 : ∀ x ∈ (rawFetchone s).2.rows, x ≠ none := by
                rw [rawFetchone_rows]; exact h
              have ih2 := ih (rawFetchone s).2 h2
              simp only [rawFetchone, hs, hr, logical] at ih2
              simp [fetchmanyAux, fetchone_nil s hr, rawFetchone, hs, ih2, logical, hr]

/-- Draining by repeated `fetchone` drops a prefix of the logical row
sequence from the state and keeps the buffer marker-free. -/
theorem fetchmanyAux_state :
    ∀ (n : Nat) (s : AdapterState α β), (∀ x ∈ s.rows, x ≠ none) →
      (∀ x ∈ (fetchmanyAux n s).2.rows, x ≠ none) ∧
        logical (fetchmanyAux n s).2 = (logical s).drop n := by
  intro n
  induction n with
  | zero => intro s h; exact ⟨h, by simp [fetchmanyAux]⟩
  | succ n ih =>
      intro s h
      cases hr : s.rows with
      | cons e rest =>
          cases e with
          | none => exact absurd rfl (h none (hr ▸ List.mem_cons_self _ _))
          | some r =>
              have h2 : ∀ x ∈ ({ s with rows := rest } : AdapterState α β).rows, x ≠ none :=
                fun x hx => h x (hr ▸ List.mem_cons_of_mem _ hx)
              have ih2 := ih { s with rows := rest } h2
              constructor
              · simpa [fetchmanyAux, fetchone_cons s _ _ hr] using ih2.1
              · simpa [fetchmanyAux, fetchone_cons s _ _ hr, logical, hr] using ih2.2
      | nil =>
          cases hs : s.stream with
          | nil =>
              simp [fetchmanyAux, fetchone_nil s hr, rawFetchone, hs, logical, hr]
          | cons r rest =>
              have h2 : ∀ x ∈ (rawFetchone s).2.rows, x ≠ none := by
                rw [rawFetchone_rows]; exact h
              have ih2 := ih (rawFetchone s).2 h2
              simp only [rawFetchone, hs, hr, logical] at ih2
              constructor
              · simpa [fetchmanyAux, fetchone_nil s hr, rawFetchone, hs, hr] using ih2.1
              · simpa [fetchmanyAux, fetchone_nil s hr, rawFetchone, hs, logical, hr] using
                  ih2.2

/-- Iterating the adapter is step-for-step the same recursion as the
`fetchmany` loop: each step is a `fetchone`. -/
theorem iterDrain_eq_fetchmanyAux :
    ∀ (n : Nat) (s : AdapterState α β), iterDrain n s = fetchmanyAux n s := by
  intro n
  induction n with
  | zero => intro s; rfl
  | succ n ih =>
      intro s
      simp only [iterDrain, fetchmanyAux, nextStep]
      rcases hf : fetchone s with ⟨r, s1⟩
      cases r <;> simp [ih]

theorem peekone_stream_nil (s : AdapterState α β) (h : s.stream = []) :
    peekone s =
      (none,
        { s with
            inited := true
            descReady := true
            fetchCount := s.fetchCount + 1
            rows := none :: s.rows }) := by
  simp [peekone, rawFetchone, h]

theorem peekone_stream_cons (s : AdapterState α β) (r : α) (rest : List α)
    (h : s.stream = r :: rest) :
    peekone s =
      (some r,
        { s with
            stream := rest
            inited := true
            descReady := true
            fetchCount := s.fetchCount + 1
            rows := some r :: s.rows }) := by
  simp [peekone, rawFetchone, h]

theorem fetchone_inited (s : AdapterState α β) : (fetchone s).2.inited = s.inited := by
  cases hr : s.rows with
  | cons e rest => simp [fetchone, hr]
  | nil => cases hs : s.stream <;> simp [fetchone, hr, rawFetchone, hs]

theorem fetchmanyAux_inited :
    ∀ (n : Nat) (s : AdapterState α β), (fetchmanyAux n s).2.inited = s.inited := by
  intro n
  induction n with
  | zero => intro s; rfl
  | succ n ih =>
      intro s
      simp only [fetchmanyAux]
      rcases hf : fetchone s with ⟨r, s1⟩
      have h1 : s1.inited = s.inited := by
        have h2 := fetchone_inited s
        rw [hf] at h2
        exact h2
      cases r <;> simp [ih, h1]

/-- Result of a lookup-with-default is either the default or a value of the
table. -/
theorem lookup_getD_default_mem (m : List (String × String)) (k : String) :
    (m.lookup k).getD "STRING" = "STRING" ∨
      (m.lookup k).getD "STRING" ∈ m.map Prod.snd := by
  induction m with
  | nil => exact Or.inl rfl
  | cons p rest ih =>
      obtain ⟨pk, pv⟩ := p
      cases h : (k == pk) with
      | true => exact Or.inr (by simp [List.lookup, h])
      | false =>
          rcases ih with h1 | h1
          · exact Or.inl (by simpa [List.lookup, h] using h1)
          · refine Or.inr ?_
            simp only [List.lookup, h, List.map, List.mem_cons]
            exact Or.inr h1

/-! ## Claim theorems -/

/-- C2: the first `description` access on an adapter whose metadata has
never been materialized performs exactly one implicit peek (exactly one raw
fetch), returns the raw cursor's column-descriptor sequence, and a second
access performs zero further fetches, leaves the state untouched and
returns the same sequence. -/
theorem c2_description_single_peek (s : AdapterState Nat Nat) (h : s.inited = false) :
    (description s).1 = some s.descVal ∧
    (description s).2.fetchCount = s.fetchCount + 1 ∧
    (description s).2.descVal = s.descVal ∧
    description (description s).2 = (some s.descVal, (description s).2) := by
  cases hs : s.stream with
  | nil => simp [description, peekone_stream_nil s hs, rawDescription, h]
  | cons r rest => simp [description, peekone_stream_cons s r rest hs, rawDescription, h]

/-- C2 witness: a concrete single-row adapter. -/
theorem c2_description_single_peek_witness :
    (initAdapter ([5] : List Nat) ([7] : List Nat) 1 1).inited = false ∧
    (description (initAdapter ([5] : List Nat) ([7] : List Nat) 1 1)).1 = some [7] ∧
    (description (initAdapter ([5] : List Nat) ([7] : List Nat) 1 1)).2.fetchCount = 0 + 1 :=
  have h := c2_description_single_peek (initAdapter ([5] : List Nat) ([7] : List Nat) 1 1) rfl
  ⟨rfl, h.1, h.2.1⟩

/-- C3: `field_to_bigquery` uppercases the type code, truncates at the
first parenthesis, looks the result up in `type_map` defaulting to STRING,
and carries the field name through: DECIMAL(10,2) ↦ NUMERIC,
time with time zone ↦ STRING, MAP (unknown) ↦ STRING, BIGINT ↦ INT64. -/
theorem c3_field_to_bigquery_mapping (n : String) :
    field_to_bigquery (n, "DECIMAL(10,2)") = (n, "NUMERIC") ∧
    field_to_bigquery (n, "time with time zone") = (n, "STRING") ∧
    field_to_bigquery (n, "MAP") = (n, "STRING") ∧
    field_to_bigquery (n, "BIGINT") = (n, "INT64") ∧
    ∀ t : String, (field_to_bigquery (n, t)).1 = n ∧
      (field_to_bigquery (n, t)).2 =
        (type_map.lookup (beforeParen (pyUpper t))).getD "STRING" := by
  refine ⟨?_, ?_, ?_, ?_, fun t => ⟨rfl, rfl⟩⟩
  · exact congrArg (Prod.mk n)
      (show (type_map.lookup (beforeParen (pyUpper "DECIMAL(10,2)"))).getD "STRING"
          = "NUMERIC" by decide)
  · exact congrArg (Prod.mk n)
      (show (type_map.lookup (beforeParen (pyUpper "time with time zone"))).getD "STRING"
          = "STRING" by decide)
  · exact congrArg (Prod.mk n)
      (show (type_map.lookup (beforeParen (pyUpper "MAP"))).getD "STRING"
          = "STRING" by decide)
  · exact congrArg (Prod.mk n)
      (show (type_map.lookup (beforeParen (pyUpper "BIGINT"))).getD "STRING"
          = "INT64" by decide)

/-- C7: `peekone` pulls the raw cursor's next element and inserts it at the
front of the buffer without consuming it from the logical stream: the
`fetchone` right after a peek returns exactly the peeked element and
restores the buffer; two peeks in a row are served back in LIFO order. -/
theorem c7_peek_front_insertion (s : AdapterState Nat Nat) :
    (peekone s).1 = s.stream.head? ∧
    (peekone s).2.stream = s.stream.tail ∧
    (peekone s).2.rows = (peekone s).1 :: s.rows ∧
    fetchone (peekone s).2 = ((peekone s).1, { (peekone s).2 with rows := s.rows }) ∧
    (fetchone (peekone (peekone s).2).2).1 = (peekone (peekone s).2).1 ∧
    (fetchone (fetchone (peekone (peekone s).2).2).2).1 = (peekone s).1 := by
  cases hs : s.stream with
  | nil =>
      simp [peekone_stream_nil s hs, hs, fetchone, peekone, rawFetchone]
  | cons r rest =>
      cases hrest : rest with
      | nil =>
          simp [peekone_stream_cons s r rest hs, hs, hrest, fetchone, peekone, rawFetchone]
      | cons r2 rest2 =>
          simp [peekone_stream_cons s r rest hs, hs, hrest, fetchone, peekone, rawFetchone]

/-- C8: `field_to_bigquery` is total over fields with non-null name and
type code: it always produces a defined target type (a value of `type_map`
or the default STRING), for every engine type string. -/
theorem c8_field_to_bigquery_total (n t : String) :
    (field_to_bigquery (n, t)).2 = "STRING" ∨
      (field_to_bigquery (n, t)).2 ∈ type_map.map Prod.snd := by
  simpa [field_to_bigquery] using
    lookup_getD_default_mem type_map (beforeParen (pyUpper t))

/-- C1: for a query whose raw cursor emits `R` in order, after exactly one
metadata-triggered peek, draining by repeated `fetchone` delivers exactly
`R` in order (no omissions, no duplicates); moreover a buffered element is
always delivered before the raw cursor is touched. -/
theorem c1_fetchone_drain_preserves_order (R d : List Nat) (rc : Int)
    (asize fuel : Nat) (hfuel : R.length ≤ fuel) :
    (fetchmanyAux fuel (description (initAdapter R d rc asize)).2).1 = R ∧
    (∀ (s : AdapterState Nat Nat) (e : Option Nat) (rest : List (Option Nat)),
      s.rows = e :: rest → fetchone s = (e, { s with rows := rest })) := by
  refine ⟨?_, fun s e rest h => fetchone_cons s e rest h⟩
  cases hR : R with
  | nil =>
      subst hR
      cases fuel with
      | zero => rfl
      | succ m =>
          simp [description, initAdapter, peekone, rawFetchone, rawDescription,
            fetchmanyAux, fetchone]
  | cons r rest =>
      subst hR
      have hall : ∀ x ∈ (description (initAdapter (r :: rest) d rc asize)).2.rows,
          x ≠ none := by
        simp [description, initAdapter, peekone, rawFetchone]
      have h1 := fetchmanyAux_eq_take fuel _ hall
      have h2 : logical (description (initAdapter (r :: rest) d rc asize)).2
          = r :: rest := by
        simp [description, initAdapter, peekone, rawFetchone, logical]
      rw [h1, h2]
      exact List.take_of_length_le hfuel

/-- C1 witness: a concrete two-row query drained with enough fetch calls. -/
theorem c1_fetchone_drain_witness :
    ([10, 20] : List Nat).length ≤ 5 ∧
    (fetchmanyAux 5 (description (initAdapter ([10, 20] : List Nat) ([0] : List Nat) 2 1)).2).1
      = [10, 20] :=
  ⟨by decide, (c1_fetchone_drain_preserves_order [10, 20] [0] 2 1 5 (by decide)).1⟩

/-- C4 counterexample: `fetchmany` with requested size 0 on a one-row
adapter returns the empty sequence although the stream is not exhausted
(one row remains undelivered), so "empty iff exhausted" fails as stated for
every requested size. -/
theorem c4_fetchmany_counterexample :
    (fetchmany (initAdapter ([1] : List Nat) ([] : List Nat) 1 3) (some 0)).1 = [] ∧
    remaining (initAdapter ([1] : List Nat) ([] : List Nat) 1 3) = 1 := by
  decide

/-- C4 (amended): for size `k`, `fetchmany` returns exactly
`min k remaining` rows; for `k ≥ 1` it returns the empty sequence iff the
stream is exhausted; an omitted size falls back to the cursor's
`arraysize`.  Stated for the buffer shapes arising in normal use. -/
theorem c4_fetchmany_min (s : AdapterState Nat Nat) (k : Nat) (hb : BufOk s) :
    (fetchmany s (some k)).1.length = min k (remaining s) ∧
    (1 ≤ k → ((fetchmany s (some k)).1 = [] ↔ remaining s = 0)) ∧
    fetchmany s none = fetchmanyAux s.arraysize s := by
  rcases hb with h | ⟨h1, h2⟩
  · have ht := fetchmanyAux_eq_take k s h
    have hlen : (fetchmany s (some k)).1.length = min k (remaining s) := by
      simp [fetchmany, ht, remaining, List.length_take]
    refine ⟨hlen, fun hk => ?_, rfl⟩
    rw [show fetchmany s (some k) = fetchmanyAux k s from rfl, ht]
    constructor
    · intro he
      rcases List.take_eq_nil_iff.mp he with h0 | h0
      · omega
      · simp [remaining, h0]
    · intro he
      have h0 : logical s = [] := List.length_eq_zero.mp he
      simp [h0]
  · have hrem : remaining s = 0 := by simp [remaining, logical, h1, h2]
    have hempty : ∀ m : Nat, (fetchmanyAux m s).1 = ([] : List Nat) := by
      intro m
      cases m with
      | zero => rfl
      | succ m2 => simp [fetchmanyAux, fetchone_cons s none [] h1]
    refine ⟨?_, fun hk => ?_, rfl⟩
    · simp [fetchmany, hempty, hrem]
    · simp [fetchmany, hempty, hrem]

/-- C4 witness: a three-row adapter with requested size 2 delivers
`min 2 3 = 2` rows. -/
theorem c4_fetchmany_min_witness :
    BufOk (initAdapter ([1, 2, 3] : List Nat) ([] : List Nat) 3 2) ∧
    (fetchmany (initAdapter ([1, 2, 3] : List Nat) ([] : List Nat) 3 2) (some 2)).1.length
      = min 2 (remaining (initAdapter ([1, 2, 3] : List Nat) ([] : List Nat) 3 2)) :=
  ⟨Or.inl (by decide), (c4_fetchmany_min _ 2 (Or.inl (by decide))).1⟩

/-- C5: `execute` and `executemany` clear the row buffer, reset the
metadata flag, delegate to the raw cursor's execution call and return its
return value unchanged; a subsequent `description` access performs a fresh
implicit peek (one raw fetch). -/
theorem c5_execute_resets (s : AdapterState Nat Nat) (e : ExecEffect Nat Nat Nat) :
    execute s e = rawExecute { s with inited := false, rows := [] } e ∧
    executemany s e = rawExecute { s with inited := false, rows := [] } e ∧
    (execute s e).2.rows = [] ∧
    (execute s e).2.inited = false ∧
    (execute s e).1 = e.ret ∧
    (executemany s e).1 = e.ret ∧
    (description (execute s e).2).2.fetchCount = (execute s e).2.fetchCount + 1 := by
  refine ⟨rfl, rfl, rfl, rfl, rfl, rfl, ?_⟩
  cases hs : e.newStream <;>
    simp [execute, rawExecute, description, peekone, rawFetchone, hs]

/-- C6: when the raw cursor's row count matches the number of undelivered
rows, iterating the adapter (repeated `__next__`, i.e. `fetchone`, stopping
at the end-of-stream marker) yields exactly `rowcount` rows, and iterating
again after exhaustion yields nothing. -/
theorem c6_iteration_rowcount (s : AdapterState Nat Nat) (fuel fuel2 : Nat)
    (hb : BufOk s) (hrc : rowcount s = (remaining s : Int))
    (hfuel : remaining s ≤ fuel) :
    ((iterDrain fuel s).1.length : Int) = rowcount s ∧
    (iterDrain fuel2 (iterDrain fuel s).2).1 = [] := by
  rw [iterDrain_eq_fetchmanyAux, iterDrain_eq_fetchmanyAux]
  rcases hb with h | ⟨h1, h2⟩
  · have ht := fetchmanyAux_eq_take fuel s h
    have hst := fetchmanyAux_state fuel s h
    have hmin : min fuel (logical s).length = (logical s).length :=
      Nat.min_eq_right hfuel
    have hlen : (fetchmanyAux fuel s).1.length = remaining s := by
      rw [ht, List.length_take, remaining, hmin]
    constructor
    · rw [hlen, hrc]
    · have ht2 := fetchmanyAux_eq_take fuel2 _ hst.1
      have hdrop : (logical s).drop fuel = [] := List.drop_eq_nil_of_le hfuel
      rw [ht2, hst.2, hdrop, List.take_nil]
  · have hrem : remaining s = 0 := by simp [remaining, logical, h1, h2]
    have hfo : fetchone s = (none, { s with rows := [] }) := fetchone_cons s none [] h1
    constructor
    · cases fuel with
      | zero => simp [fetchmanyAux, hrc, hrem]
      | succ m => simp [fetchmanyAux, hfo, hrc, hrem]
    · cases fuel with
      | zero =>
          cases fuel2 with
          | zero => rfl
          | succ m2 => simp [fetchmanyAux, hfo]
      | succ m =>
          have hstep : fetchmanyAux (m + 1) s = ([], { s with rows := [] }) := by
            simp [fetchmanyAux, hfo]
          rw [hstep]
          cases fuel2 with
          | zero => rfl
          | succ m2 => simp [fetchmanyAux, fetchone, rawFetchone, h2]

/-- C6 witness: a two-row adapter whose raw row count is 2, drained with
three iterator steps. -/
theorem c6_iteration_rowcount_witness :
    BufOk (initAdapter ([4, 5] : List Nat) ([] : List Nat) 2 1) ∧
    rowcount (initAdapter ([4, 5] : List Nat) ([] : List Nat) 2 1)
      = (remaining (initAdapter ([4, 5] : List Nat) ([] : List Nat) 2 1) : Int) ∧
    ((iterDrain 3 (initAdapter ([4, 5] : List Nat) ([] : List Nat) 2 1)).1.length : Int)
      = rowcount (initAdapter ([4, 5] : List Nat) ([] : List Nat) 2 1) :=
  ⟨Or.inl (by decide), by decide,
    (c6_iteration_rowcount _ 3 0 (Or.inl (by decide)) (by decide) (by decide)).1⟩

/-- C9: a peek on an exhausted raw cursor inserts the end-of-stream marker
itself into the buffer, and the next `fetchone` pops that marker; on an
empty result set, metadata access followed by `fetchone` yields the marker,
and `fetchmany` and iteration treat the buffered marker as exhaustion. -/
theorem c9_exhausted_peek (s : AdapterState Nat Nat) (h : s.stream = []) :
    (peekone s).1 = none ∧
    (peekone s).2.rows = none :: s.rows ∧
    (fetchone (peekone s).2).1 = none ∧
    (fetchone (peekone s).2).2.rows = s.rows ∧
    (∀ (d : List Nat) (rc : Int) (asize k fuel : Nat),
      (fetchone (description (initAdapter ([] : List Nat) d rc asize)).2).1 = none ∧
      (fetchmany (description (initAdapter ([] : List Nat) d rc asize)).2 (some k)).1 = [] ∧
      (iterDrain fuel (description (initAdapter ([] : List Nat) d rc asize)).2).1 = []) := by
  refine ⟨?_, ?_, ?_, ?_, ?_⟩
  · simp [peekone_stream_nil s h]
  · simp [peekone_stream_nil s h]
  · simp [peekone_stream_nil s h, fetchone]
  · simp [peekone_stream_nil s h, fetchone]
  · intro d rc asize k fuel
    have hst : (description (initAdapter ([] : List Nat) d rc asize)).2.rows = [none] := by
      simp [description, initAdapter, peekone, rawFetchone]
    have hfo := fetchone_cons _ none [] hst
    refine ⟨by rw [hfo], ?_, ?_⟩
    · cases k with
      | zero => rfl
      | succ m => simp [fetchmany, fetchmanyAux, hfo]
    · rw [iterDrain_eq_fetchmanyAux]
      cases fuel with
      | zero => rfl
      | succ m => simp [fetchmanyAux, hfo]

/-- C9 witness: an exhausted one-column adapter. -/
theorem c9_exhausted_peek_witness :
    (initAdapter ([] : List Nat) ([9] : List Nat) 0 1).stream = [] ∧
    (peekone (initAdapter ([] : List Nat) ([9] : List Nat) 0 1)).1 = none :=
  ⟨rfl, (c9_exhausted_peek _ rfl).1⟩

/-- C10: `fetchone`, the `fetchmany` loop and iteration never change the
metadata-materialized flag; only `peekone` sets it and only
`execute`/`executemany` reset it; `fetchone` keeps an empty buffer empty,
so a metadata access after any number of ordinary `fetchone` calls on a
never-initialized adapter performs exactly one extra raw fetch and
preserves the logical row sequence (the peeked row is delivered next). -/
theorem c10_fetch_frame :
    (∀ s : AdapterState Nat Nat, (fetchone s).2.inited = s.inited) ∧
    (∀ (n : Nat) (s : AdapterState Nat Nat), (fetchmanyAux n s).2.inited = s.inited) ∧
    (∀ (n : Nat) (s : AdapterState Nat Nat), (iterDrain n s).2.inited = s.inited) ∧
    (∀ s : AdapterState Nat Nat, (peekone s).2.inited = true) ∧
    (∀ (s : AdapterState Nat Nat) (e : ExecEffect Nat Nat Nat),
      (execute s e).2.inited = false ∧ (executemany s e).2.inited = false) ∧
    (∀ s : AdapterState Nat Nat, s.rows = [] → (fetchone s).2.rows = []) ∧
    (∀ s : AdapterState Nat Nat, s.inited = false → s.rows = [] →
      (description s).2.fetchCount = s.fetchCount + 1 ∧
      logical (description s).2 = logical s) := by
  refine ⟨fetchone_inited, fetchmanyAux_inited, ?_, ?_, ?_, ?_, ?_⟩
  · intro n s
    rw [iterDrain_eq_fetchmanyAux]
    exact fetchmanyAux_inited n s
  · intro s
    cases hs : s.stream <;> simp [peekone, rawFetchone, hs]
  · intro s e
    exact ⟨rfl, rfl⟩
  · intro s h
    rw [fetchone_nil s h, rawFetchone_rows]
    exact h
  · intro s h hr
    cases hs : s.stream with
    | nil => simp [description, h, peekone_stream_nil s hs, logical, hr, hs]
    | cons r rest => simp [description, h, peekone_stream_cons s r rest hs, logical, hr, hs]

/-- C10 witness: a one-row adapter, metadata accessed from the fresh
state. -/
theorem c10_fetch_frame_witness :
    (initAdapter ([8] : List Nat) ([] : List Nat) 1 1).inited = false ∧
    (initAdapter ([8] : List Nat) ([] : List Nat) 1 1).rows = [] ∧
    (description (initAdapter ([8] : List Nat) ([] : List Nat) 1 1)).2.fetchCount
      = (initAdapter ([8] : List Nat) ([] : List Nat) 1 1).fetchCount + 1 :=
  ⟨rfl, rfl, (c10_fetch_frame.2.2.2.2.2.2 _ rfl rfl).1⟩

end TrinoGcs
